import Mathlib

/-!
Shallow embedding of the aqua version manager's core (registry configuration,
registry acquisition, GitHub release download fallback, link layout and the
exec controller retry loop), together with theorems checking the
natural-language specification against it.

Sources embedded:
* `pkg/config/aqua/registry.go` (`Registry`, `Validate`, `UnmarshalYAML`, `FilePath`)
* `installpackage` link layout (`createLinks`, `replaceWithHardlinks`, `createLink`, `recreateLink`)
* `download` package (`downloadFromGitHubRelease`, `getAssetIDFromAssets`)
* `install-registry` HTTP archive search (`extractHTTPRegistryArchive`)
* `exec` controller (`execCommand`, `execCommandWithRetry`)
-/

deriving instance DecidableEq for Except

/- ### String / path helpers mirroring Go's strings and path/filepath -/

/-- UTF-8 encoding of a single Unicode code point, as Go produces for `[]byte(s)`. -/
def utf8EncodeChar (c : Nat) : List Nat :=
  if c < 128 then [c]
  else if c < 2048 then [192 + c / 64, 128 + c % 64]
  else if c < 65536 then [224 + c / 4096, 128 + (c / 64) % 64, 128 + c % 64]
  else [240 + c / 262144, 128 + (c / 4096) % 64, 128 + (c / 64) % 64, 128 + c % 64]

/-- The bytes of a Go string (`[]byte(s)`): UTF-8 encoding of its characters. -/
def strBytes (s : String) : List Nat :=
  (s.data.map (fun c => utf8EncodeChar c.toNat)).flatten

/-- `List.isPrefixOf`-based infix test over characters. -/
def charsHaveInfix (pat : List Char) : List Char → Bool
  | [] => pat.isEmpty
  | c :: rest => pat.isPrefixOf (c :: rest) || charsHaveInfix pat rest

/-- Go's `strings.Contains s pat`. -/
def stringsContains (s pat : String) : Bool :=
  charsHaveInfix pat.data s.data

/-- Go's `filepath.Join` restricted to the clean inputs the program builds:
empty components are skipped and the rest are joined with `/`
(no `.`/`..` cleaning is needed for the paths that occur here). -/
def filepathJoin (parts : List String) : String :=
  String.intercalate "/" (parts.filter (fun p => p != ""))

/-- Go's `filepath.Base`: strip trailing slashes and take the last element;
`""` gives `"."` and an all-slash path gives `"/"`. -/
def filepathBase (p : String) : String :=
  if p == "" then "."
  else
    let rcs := p.data.reverse.dropWhile (fun c => c == '/')
    if rcs.isEmpty then "/"
    else ⟨(rcs.takeWhile (fun c => c != '/')).reverse⟩

/-- Go's `filepath.Dir`: everything before the last element; `""`/no slash
gives `"."`, a root-only remainder gives `"/"`. -/
def filepathDir (p : String) : String :=
  let rcs := p.data.reverse.dropWhile (fun c => c != '/')
  if rcs.isEmpty then "."
  else
    let rcs2 := rcs.dropWhile (fun c => c == '/')
    if rcs2.isEmpty then "/" else ⟨rcs2.reverse⟩

/- ### SHA-256 (Go's crypto/sha256), executable over byte lists -/

/-- 32-bit rotate right of a word already reduced modulo `2 ^ 32`. -/
def rotr32 (n x : Nat) : Nat :=
  ((x <<< (32 - n)) ||| (x >>> n)) % 4294967296

/-- SHA-256 `Ch` function. -/
def sha2Ch (x y z : Nat) : Nat := (x &&& y) ^^^ ((x ^^^ 4294967295) &&& z)

/-- SHA-256 `Maj` function. -/
def sha2Maj (x y z : Nat) : Nat := (x &&& y) ^^^ (x &&& z) ^^^ (y &&& z)

/-- SHA-256 Σ₀. -/
def sha2BigSigma0 (x : Nat) : Nat := rotr32 2 x ^^^ rotr32 13 x ^^^ rotr32 22 x

/-- SHA-256 Σ₁. -/
def sha2BigSigma1 (x : Nat) : Nat := rotr32 6 x ^^^ rotr32 11 x ^^^ rotr32 25 x

/-- SHA-256 σ₀. -/
def sha2SmallSigma0 (x : Nat) : Nat := rotr32 7 x ^^^ rotr32 18 x ^^^ (x >>> 3)

/-- SHA-256 σ₁. -/
def sha2SmallSigma1 (x : Nat) : Nat := rotr32 17 x ^^^ rotr32 19 x ^^^ (x >>> 10)

/-- The 64 SHA-256 round constants. -/
def sha2K : List Nat :=
  [1116352408, 1899447441, 3049323471, 3921009573, 961987163,
   1508970993, 2453635748, 2870763221, 3624381080, 310598401,
   607225278, 1426881987, 1925078388, 2162078206, 2614888103,
   3248222580, 3835390401, 4022224774, 264347078, 604807628,
   770255983, 1249150122, 1555081692, 1996064986, 2554220882,
   2821834349, 2952996808, 3210313671, 3336571891, 3584528711,
   113926993, 338241895, 666307205, 773529912, 1294757372,
   1396182291, 1695183700, 1986661051, 2177026350, 2456956037,
   2730485921, 2820302411, 3259730800, 3345764771, 3516065817,
   3600352804, 4094571909, 275423344, 430227734, 506948616,
   659060556, 883997877, 958139571, 1322822218, 1537002063,
   1747873779, 1955562222, 2024104815, 2227730452, 2361852424,
   2428436474, 2756734187, 3204031479, 3329325298]

/-- The SHA-256 initial hash value. -/
def sha2H0 : List Nat :=
  [1779033703, 3144134277, 1013904242, 2773480762,
   1359893119, 2600822924, 528734635, 1541459225]

/-- SHA-256 padding: append `0x80`, zeros to 56 mod 64, then the bit length
as 8 big-endian bytes. -/
def sha256Pad (msg : List Nat) : List Nat :=
  let len := msg.length
  let k := (119 - (len % 64)) % 64
  msg ++ [128] ++ List.replicate k 0 ++
    (List.range 8).map (fun i => ((len * 8) >>> ((7 - i) * 8)) % 256)

/-- Split a byte list into 64-byte blocks (fuel-driven for structural recursion). -/
def toBlocksFuel : Nat → List Nat → List (List Nat)
  | 0, _ => []
  | _, [] => []
  | fuel + 1, l => l.take 64 :: toBlocksFuel fuel (l.drop 64)

/-- Split a byte list into 64-byte blocks. -/
def toBlocks (l : List Nat) : List (List Nat) :=
  toBlocksFuel (l.length / 64 + 1) l

/-- Extend 16 message-schedule words to 64. -/
def sha256Schedule (w : List Nat) : List Nat :=
  (List.range 48).foldl
    (fun w i =>
      w ++ [(sha2SmallSigma1 (w.getD (i + 14) 0) + w.getD (i + 9) 0 +
             sha2SmallSigma0 (w.getD (i + 1) 0) + w.getD i 0) % 4294967296])
    w

/-- One SHA-256 compression step over the 8-word working state. -/
def sha256Round (w : List Nat) (s : List Nat) (i : Nat) : List Nat :=
  match s with
  | [a, b, c, d, e, f, g, hh] =>
    let t1 := (hh + sha2BigSigma1 e + sha2Ch e f g + sha2K.getD i 0 + w.getD i 0) % 4294967296
    let t2 := (sha2BigSigma0 a + sha2Maj a b c) % 4294967296
    [(t1 + t2) % 4294967296, a, b, c, (d + t1) % 4294967296, e, f, g]
  | s => s

/-- Compress one 64-byte block into the running 8-word hash value. -/
def sha256Compress (hv : List Nat) (block : List Nat) : List Nat :=
  let w16 := (List.range 16).map (fun i =>
    (block.getD (4 * i) 0) <<< 24 ||| (block.getD (4 * i + 1) 0) <<< 16 |||
    (block.getD (4 * i + 2) 0) <<< 8 ||| block.getD (4 * i + 3) 0)
  let w := sha256Schedule w16
  let s := (List.range 64).foldl (sha256Round w) hv
  List.zipWith (fun x y => (x + y) % 4294967296) hv s

/-- SHA-256 digest of a byte list, as 32 bytes. -/
def sha256Sum (msg : List Nat) : List Nat :=
  let hv := (toBlocks (sha256Pad msg)).foldl sha256Compress sha2H0
  (hv.map (fun w => [(w >>> 24) % 256, (w >>> 16) % 256, (w >>> 8) % 256, w % 256])).flatten

/-- Lowercase hex digit of a value below 16. -/
def hexDigit (n : Nat) : Char :=
  if n < 10 then Char.ofNat (48 + n) else Char.ofNat (87 + n)

/-- Go's `hex.EncodeToString` over a byte list. -/
def hexEncode (bs : List Nat) : String :=
  ⟨(bs.map (fun b => [hexDigit (b / 16), hexDigit (b % 16)])).flatten⟩

/-- Go's string slicing `s[:n]` for ASCII content (hex strings). -/
def stringTake (n : Nat) (s : String) : String :=
  ⟨s.data.take n⟩

/- ### pkg/config/aqua/registry.go -/

/-- `aqua.Registry` (pkg/config/aqua/registry.go). Go's field `Type` is the
Lean keyword `type`, so it is named `ty`; Go's `Private` is named `priv`. -/
structure Registry where
  name : String
  ty : String
  repoOwner : String
  repoName : String
  ref : String
  path : String
  priv : Bool
  url : String
  version : String
  format : String
deriving DecidableEq, Repr

/-- The zero value of `aqua.Registry`. -/
def Registry.empty : Registry :=
  ⟨"", "", "", "", "", "", false, "", "", ""⟩

/-- The registry validation errors of pkg/config/aqua (error.go). -/
inductive RegistryErr
  | invalidRegistryType
  | pathIsRequired
  | repoOwnerIsRequired
  | repoNameIsRequired
  | refIsRequired
  | refCannotBeMainOrMaster
  | urlIsRequired
  | versionIsRequired
  | urlMustContainVersion
deriving DecidableEq, Repr

/-- `Registry.validateLocal`. -/
def Registry.validateLocal (r : Registry) : Except RegistryErr Unit :=
  if r.path == "" then .error .pathIsRequired else .ok ()

/-- `Registry.validateGitHubContent`. -/
def Registry.validateGitHubContent (r : Registry) : Except RegistryErr Unit :=
  if r.repoOwner == "" then .error .repoOwnerIsRequired
  else if r.repoName == "" then .error .repoNameIsRequired
  else if r.ref == "" then .error .refIsRequired
  else if r.ref == "main" || r.ref == "master" then .error .refCannotBeMainOrMaster
  else .ok ()

/-- `Registry.validateHTTP`. -/
def Registry.validateHTTP (r : Registry) : Except RegistryErr Unit :=
  if r.url == "" then .error .urlIsRequired
  else if r.version == "" then .error .versionIsRequired
  else if !stringsContains r.url "\x7b\x7b.Version\x7d\x7d" then .error .urlMustContainVersion
  else .ok ()

/-- `Registry.Validate`: dispatch on the registry type. -/
def Registry.validate (r : Registry) : Except RegistryErr Unit :=
  if r.ty == "local" then r.validateLocal
  else if r.ty == "github_content" then r.validateGitHubContent
  else if r.ty == "http" then r.validateHTTP
  else .error .invalidRegistryType

/-- The normalization `Registry.UnmarshalYAML` applies to the decoded value:
a `standard` registry becomes a `github_content` registry with the absent
fields defaulted. -/
def Registry.unmarshalYAML (a : Registry) : Registry :=
  if a.ty == "standard" then
    { a with
      ty := "github_content"
      name := if a.name == "" then "standard" else a.name
      repoOwner := if a.repoOwner == "" then "aquaproj" else a.repoOwner
      repoName := if a.repoName == "" then "aqua-registry" else a.repoName
      path := if a.path == "" then "registry.yaml" else a.path }
  else a

/-- Modelled from the spec: `osfile.Abs` is not under src (only its caller
`Registry.FilePath` is); the test for a local registry expects path
`foo.yaml` with config `ci/aqua.yaml` to give `ci/foo.yaml`, i.e. a relative
path is joined to the base and an absolute path is kept. -/
def osfileAbs (base p : String) : String :=
  if p.startsWith "/" then p else filepathJoin [base, p]

/-- `Registry.FilePath`: the cache location of a registry file. -/
def Registry.filePath (r : Registry) (rootDir cfgFilePath : String) :
    Except RegistryErr String :=
  if r.ty == "local" then
    .ok (osfileAbs (filepathDir cfgFilePath) r.path)
  else if r.ty == "github_content" then
    .ok (filepathJoin [rootDir, "registries", r.ty, "github.com",
      r.repoOwner, r.repoName, r.ref, r.path])
  else if r.ty == "http" then
    let hashStr : String := stringTake 16 (hexEncode (sha256Sum (strBytes r.url)))
    let registryFileName := if r.path != "" then filepathBase r.path else "registry.yaml"
    .ok (filepathJoin [rootDir, "registries", r.ty, hashStr, r.version, registryFileName])
  else .error .invalidRegistryType

/- ### installpackage link layout (createLinks / replaceWithHardlinks / createLink) -/

/-- The kind of an existing filesystem entry, as seen through `Lstat`. -/
inductive FsKind
  | regular
  | dir
  | namedPipe
  | symlinkTo (target : String)
  | other
deriving DecidableEq, Repr

/-- A filesystem snapshot: an association of paths to entry kinds. -/
def Fs : Type := List (String × FsKind)

/-- `Lstat` over a snapshot. -/
def lstat (fs : Fs) (p : String) : Option FsKind :=
  ((fs : List (String × FsKind)).find? (fun e => e.1 == p)).map (fun e => e.2)

/-- `afero.Exists` over a snapshot. -/
def fsExists (fs : Fs) (p : String) : Bool :=
  (lstat fs p).isSome

/-- A mutation the link layer performs on the filesystem. -/
inductive LinkOp
  | remove (p : String)
  | symlink (dest p : String)
  | hardlink (dest p : String)
  | createFile (p : String)
deriving DecidableEq, Repr

/-- Errors of `createLink` (installpackage). -/
inductive LinkErr
  | pathIsDirectory (p : String)
  | pathIsNamedPipe (p : String)
  | unexpectedFileMode (p : String)
deriving DecidableEq, Repr

/-- `Installer.createLink`: the case analysis on the existing entry at
`linkPath`, yielding the operations performed (a failing branch performs
none). The symlink branch is Go's `recreateLink`. -/
def createLink (fs : Fs) (linkPath linkDest : String) :
    Except LinkErr (List LinkOp) :=
  match lstat fs linkPath with
  | some .dir => .error (.pathIsDirectory linkPath)
  | some .namedPipe => .error (.pathIsNamedPipe linkPath)
  | some .regular => .ok [.remove linkPath, .symlink linkDest linkPath]
  | some (.symlinkTo lnDest) =>
    if linkDest == lnDest then .ok []
    else .ok [.remove linkPath, .symlink linkDest linkPath]
  | some .other => .error (.unexpectedFileMode linkPath)
  | none => .ok [.symlink linkDest linkPath]

/-- Modelled from the spec: `isWindows` is defined outside src; §4.6 says
hard links are used on Windows because symlinks need elevated privilege. -/
def isWindows (goos : String) : Bool := goos == "windows"

/-- Modelled from the spec: the `proxyName` constant is defined outside src;
§3.2 plants `bin/<exe_name>` as a link to `../aqua-proxy`. -/
def proxyName : String := "aqua-proxy"

/-- The loop body of `Installer.createLinks` for one file: Windows gets a
hard link to the proxy, every other OS a symbolic link to `../aqua-proxy`.
The accumulator is the Go `failed` flag and the operations performed
(interpreted against the initial snapshot). -/
def createLinksStep (goos rootDir : String) (fs : Fs)
    (acc : Bool × List LinkOp) (fileName : String) : Bool × List LinkOp :=
  if isWindows goos then
    (acc.1, acc.2 ++ [LinkOp.hardlink (filepathJoin [rootDir, proxyName ++ ".exe"])
      (filepathJoin [rootDir, "bin", fileName ++ ".exe"])])
  else
    match createLink fs (filepathJoin [rootDir, "bin", fileName])
        (filepathJoin ["..", proxyName]) with
    | .ok ops => (acc.1, acc.2 ++ ops)
    | .error _ => (true, acc.2)

/-- The two nested loops of `createLinks`, folding `createLinksStep` over
every file of every package. -/
def createLinks (goos rootDir : String) (fs : Fs) (pkgs : List (List String)) :
    Bool × List LinkOp :=
  pkgs.foldl (fun acc files => files.foldl (createLinksStep goos rootDir fs) acc)
    (false, [])

/-- The names of the direct children of `dir` in a snapshot (`afero.ReadDir`),
computed over character lists. -/
def readDirNames (fs : Fs) (dir : String) : List String :=
  (fs : List (String × FsKind)).filterMap (fun e =>
    let pre := (dir ++ "/").data
    if pre.isPrefixOf e.1.data then
      let rest := e.1.data.drop pre.length
      if !rest.isEmpty && !(rest.contains '/') then some ⟨rest⟩ else none
    else none)

/-- Error of `replaceWithHardlinks` when the bin directory cannot be read. -/
inductive MigrateErr
  | readBinDir
deriving DecidableEq, Repr

/-- `Installer.replaceWithHardlinks`: when the `hardlink` sentinel under the
root directory is absent, remove every entry of `<root>/bin`, hard link it to
the proxy, and create the sentinel; when the sentinel exists, do nothing. -/
def replaceWithHardlinks (fs : Fs) (rootDir : String) :
    Except MigrateErr (List LinkOp) :=
  let hardlinkFile := filepathJoin [rootDir, "hardlink"]
  if fsExists fs hardlinkFile then .ok []
  else
    let binDir := filepathJoin [rootDir, "bin"]
    match lstat fs binDir with
    | some .dir =>
      let proxy := filepathJoin [rootDir, "aqua-proxy"]
      .ok (((readDirNames fs binDir).map (fun n =>
          [LinkOp.remove (filepathJoin [binDir, n]),
           LinkOp.hardlink proxy (filepathJoin [binDir, n])])).flatten
        ++ [LinkOp.createFile hardlinkFile])
    | _ => .error .readBinDir

/- ### download package: downloadFromGitHubRelease -/

/-- A GitHub release asset (name and id). -/
structure ReleaseAsset where
  name : String
  id : Nat
deriving DecidableEq, Repr

/-- Errors of the release download path. -/
inductive GhErr
  | gitHubTokenIsRequired
  | getReleaseByTag
  | assetIsNotFound (assetName : String)
  | downloadReleaseAsset
  | redirectDownload
deriving DecidableEq, Repr

/-- The external calls the downloader can make, recorded as a trace. -/
inductive Call
  | httpGet (url : String)
  | apiGetReleaseByTag (owner repo version : String)
  | apiDownloadReleaseAsset (id : Nat)
deriving DecidableEq, Repr

/-- The downloader's environment: the anonymous HTTP client, the GitHub
Releases API (when a client is configured), and whether a client exists. -/
structure ReleaseEnv where
  httpDownload : String → Except Unit String
  getReleaseByTag : String → String → String → Except Unit (List ReleaseAsset)
  downloadReleaseAsset : Nat → Except Unit (Option String × String)
  hasGitHub : Bool

/-- `getAssetIDFromAssets`: the id of the first asset whose name matches. -/
def getAssetIDFromAssets (assets : List ReleaseAsset) (assetName : String) :
    Except GhErr Nat :=
  match assets.find? (fun a => a.name == assetName) with
  | some a => .ok a.id
  | none => .error (.assetIsNotFound assetName)

/-- The anonymous GitHub release download URL. -/
def anonymousReleaseURL (owner repo version assetName : String) : String :=
  "https://github.com/" ++ owner ++ "/" ++ repo ++ "/releases/download/" ++
    version ++ "/" ++ assetName

/-- `pkgDownloader.downloadFromGitHubRelease`: try the anonymous URL; on any
failure fall back to the GitHub Releases API (requiring a configured client),
find the asset id by name, call `DownloadReleaseAsset`, and either return its
body or follow the returned redirect URL. Also returns the trace of calls. -/
def downloadFromGitHubRelease (env : ReleaseEnv)
    (owner repo version assetName : String) :
    Except GhErr String × List Call :=
  let url := anonymousReleaseURL owner repo version assetName
  match env.httpDownload url with
  | .ok b => (.ok b, [.httpGet url])
  | .error _ =>
    if !env.hasGitHub then (.error .gitHubTokenIsRequired, [.httpGet url])
    else
      match env.getReleaseByTag owner repo version with
      | .error _ =>
        (.error .getReleaseByTag, [.httpGet url, .apiGetReleaseByTag owner repo version])
      | .ok assets =>
        match getAssetIDFromAssets assets assetName with
        | .error e =>
          (.error e, [.httpGet url, .apiGetReleaseByTag owner repo version])
        | .ok assetID =>
          match env.downloadReleaseAsset assetID with
          | .error _ =>
            (.error .downloadReleaseAsset,
             [.httpGet url, .apiGetReleaseByTag owner repo version,
              .apiDownloadReleaseAsset assetID])
          | .ok (some body, _) =>
            (.ok body,
             [.httpGet url, .apiGetReleaseByTag owner repo version,
              .apiDownloadReleaseAsset assetID])
          | .ok (none, redirectURL) =>
            match env.httpDownload redirectURL with
            | .ok b =>
              (.ok b,
               [.httpGet url, .apiGetReleaseByTag owner repo version,
                .apiDownloadReleaseAsset assetID, .httpGet redirectURL])
            | .error _ =>
              (.error .redirectDownload,
               [.httpGet url, .apiGetReleaseByTag owner repo version,
                .apiDownloadReleaseAsset assetID, .httpGet redirectURL])

/- ### install-registry: extractHTTPRegistryArchive search -/

/-- Error of the archive search: no candidate registry file could be read. -/
inductive ArchiveErr
  | registryFileNotFound (searched : List String)
deriving DecidableEq, Repr

/-- The candidate paths `extractHTTPRegistryArchive` searches inside the
extracted tree: the registry's `path` exactly when set, otherwise
`registry.yaml` then `registry.yml`. -/
def archiveSearchPaths (regPath : String) : List String :=
  let registryFileName := if regPath != "" then filepathBase regPath else "registry.yaml"
  let searchPaths := [registryFileName]
  if regPath == "" then searchPaths ++ ["registry.yml"] else [regPath]

/-- The search loop of `extractHTTPRegistryArchive`: the first candidate that
can be read wins, returning its content and full path. -/
def archiveSearchLoop (readFile : String → Option String) (extractDir : String) :
    List String → Option (String × String)
  | [] => none
  | p :: rest =>
    match readFile (filepathJoin [extractDir, p]) with
    | some data => some (data, filepathJoin [extractDir, p])
    | none => archiveSearchLoop readFile extractDir rest

/-- The registry-file location step of `extractHTTPRegistryArchive`, after the
archive body has been written to a temporary file and extracted: search the
extracted tree, failing when no candidate exists. -/
def findRegistryInArchive (readFile : String → Option String)
    (extractDir regPath : String) : Except ArchiveErr (String × String) :=
  match archiveSearchLoop readFile extractDir (archiveSearchPaths regPath) with
  | some r => .ok r
  | none => .error (.registryFileNotFound (archiveSearchPaths regPath))

/- ### exec controller: execCommand / execCommandWithRetry -/

/-- Errors the exec controller can return. -/
inductive ExecErr
  | execXSys
  | startFailure
  | exitCodeError (code : Int)
  | ctxCancelled
  | failedToStart
deriving DecidableEq, Repr

/-- The exec controller's environment: for each attempt index, the executor's
result `(exit code, errored?)`, whether `ctx.Err()` is non-nil at the exit
code check, whether the context is done during the wait that follows, and
the `ExecXSys` outcome. -/
structure ExecEnv where
  execResult : Nat → Int × Bool
  cancelled : Nat → Bool
  waitCancelled : Nat → Bool
  execXSysErrored : Nat → Bool

/-- `Controller.execCommand` at attempt `i`: `(retried, err)`. With XSysExec
enabled a failure asks for a retry; otherwise an executor error with exit
code `-1` and no context cancellation asks for a retry, any other executor
error is wrapped with its exit code, and success returns no error. -/
def execCommand (env : ExecEnv) (xsys : Bool) (i : Nat) : Bool × Option ExecErr :=
  if xsys then
    if env.execXSysErrored i then (true, some .execXSys) else (false, none)
  else
    let r := env.execResult i
    if r.2 then
      if r.1 == -1 && !env.cancelled i then (true, some .startFailure)
      else (false, some (.exitCodeError r.1))
    else (false, none)

/-- The loop body of `execCommandWithRetry`, with the remaining iteration
count explicit; returns the error and the list of waits performed, each the
10 ms duration the code passes to `wait`. -/
def execRetryLoop (env : ExecEnv) (xsys : Bool) : Nat → Nat → Option ExecErr × List Nat
  | 0, _ => (some .failedToStart, [])
  | fuel + 1, i =>
    match execCommand env xsys i with
    | (false, e) => (e, [])
    | (true, _) =>
      if env.waitCancelled i then (some .ctxCancelled, [10])
      else
        let r := execRetryLoop env xsys fuel (i + 1)
        (r.1, 10 :: r.2)

/-- `Controller.execCommandWithRetry`: up to 10 attempts, then
`errFailedToStartProcess`. -/
def execCommandWithRetry (env : ExecEnv) (xsys : Bool) : Option ExecErr × List Nat :=
  execRetryLoop env xsys 10 0

/- ### Concrete example registries used by the spec's scenarios -/

set_option maxRecDepth 100000

/-- The standard registry input of spec scenario 2: `{type: standard, ref: v2.5.0}`. -/
def standardRegistryInput : Registry :=
  { Registry.empty with ty := "standard", ref := "v2.5.0" }

/-- The HTTP registry of spec scenario 1. -/
def httpRegistryInput : Registry :=
  { Registry.empty with
    ty := "http"
    url := "https://example.com/registry/\x7b\x7b.Version\x7d\x7d/registry.tar.gz"
    version := "v1.0.0" }

/-- The github_content registry of spec scenario 3 (unstable ref `main`). -/
def githubMainRefInput : Registry :=
  { Registry.empty with ty := "github_content", repoOwner := "x", repoName := "y", ref := "main" }

/- ### C6 -/

/-- C6: for every registry of type `github_content`, `Validate` succeeds
exactly when `repo_owner`, `repo_name` and `ref` are non-empty and `ref` is
neither `main` nor `master`; and the scenario-3 registry with ref `main`
fails with `refCannotBeMainOrMaster`. -/
theorem validate_githubContent_spec (r : Registry) (h : r.ty = "github_content") :
    (r.validate = .ok () ↔
      r.repoOwner ≠ "" ∧ r.repoName ≠ "" ∧ r.ref ≠ "" ∧
        r.ref ≠ "main" ∧ r.ref ≠ "master") ∧
    githubMainRefInput.validate = .error .refCannotBeMainOrMaster := by
  constructor
  · rw [Registry.validate, h]
    simp only [Registry.validateGitHubContent]
    by_cases h1 : r.repoOwner = "" <;>
      by_cases h2 : r.repoName = "" <;>
        by_cases h3 : r.ref = "" <;>
          by_cases h4 : r.ref = "main" <;>
            by_cases h5 : r.ref = "master" <;>
              simp [h1, h2, h3, h4, h5]
  · decide

/-- Witness for C6: the characterization applied to the scenario-3 registry. -/
theorem validate_githubContent_spec_witness :
    githubMainRefInput.ty = "github_content" ∧
    ¬(githubMainRefInput.repoOwner ≠ "" ∧ githubMainRefInput.repoName ≠ "" ∧
        githubMainRefInput.ref ≠ "" ∧ githubMainRefInput.ref ≠ "main" ∧
        githubMainRefInput.ref ≠ "master") ∧
    githubMainRefInput.validate ≠ .ok () :=
  ⟨by decide, by decide,
   fun hok => by
    have h := (validate_githubContent_spec githubMainRefInput (by decide)).1.mp hok
    exact absurd h (by decide)⟩

/- ### C7 -/

/-- C7: for every registry of type `http`, `Validate` succeeds exactly when
`URL` and `Version` are non-empty and `URL` contains the literal substring
`{{.Version}}` (braces escaped here as `\x7b`/`\x7d`); an empty URL fails
with `urlIsRequired`, an empty Version (with a URL given) fails with
`versionIsRequired`, and a non-empty URL and Version without the token fail
with `urlMustContainVersion`. -/
theorem validate_http_spec (r : Registry) (h : r.ty = "http") :
    (r.validate = .ok () ↔
      r.url ≠ "" ∧ r.version ≠ "" ∧
        stringsContains r.url "\x7b\x7b.Version\x7d\x7d" = true) ∧
    (r.url = "" → r.validate = .error .urlIsRequired) ∧
    (r.url ≠ "" → r.version = "" → r.validate = .error .versionIsRequired) ∧
    (r.url ≠ "" → r.version ≠ "" →
      stringsContains r.url "\x7b\x7b.Version\x7d\x7d" = false →
      r.validate = .error .urlMustContainVersion) := by
  rw [Registry.validate, h]
  simp only [Registry.validateHTTP]
  refine ⟨?_, ?_, ?_, ?_⟩
  · by_cases h1 : r.url = "" <;>
      by_cases h2 : r.version = "" <;>
        by_cases h3 : stringsContains r.url "\x7b\x7b.Version\x7d\x7d" = true <;>
          simp [h1, h2, h3]
  · intro h1; simp [h1]
  · intro h1 h2; simp [h1, h2]
  · intro h1 h2 h3; simp [h1, h2, h3]

/-- The spec's scenario-4 registry: an HTTP registry whose URL lacks the
version token. -/
def httpNoTokenInput : Registry :=
  { Registry.empty with
      ty := "http"
      url := "https://e/v1/registry.yaml"
      version := "v1" }

/-- A valid HTTP registry from the validation test suite. -/
def httpValidInput : Registry :=
  { Registry.empty with
      ty := "http"
      url := "https://example.com/registry/\x7b\x7b.Version\x7d\x7d/registry.yaml"
      version := "v1.0.0" }

/-- Witness for C7: the spec's scenario-4 registry (URL without the version
token) and the test-suite's valid HTTP registry. -/
theorem validate_http_spec_witness :
    httpNoTokenInput.validate = .error .urlMustContainVersion ∧
    httpValidInput.validate = .ok () :=
  ⟨(validate_http_spec httpNoTokenInput rfl).2.2.2 (by decide) (by decide) (by decide),
   (validate_http_spec httpValidInput rfl).1.mpr (by decide)⟩

/- ### C4 -/

/-- The result of scenario 2 as the config-reader test expects it. -/
def standardRegistryExpanded : Registry :=
  { Registry.empty with
      ty := "github_content"
      name := "standard"
      repoOwner := "aquaproj"
      repoName := "aqua-registry"
      ref := "v2.5.0"
      path := "registry.yaml" }

/-- C4: reading a workspace config rewrites a `standard` registry to a
`github_content` registry with the absent fields defaulted (`name` to
`standard`, owner to `aquaproj`, repo to `aqua-registry`, path to
`registry.yaml`), preserving `ref` and every already-set field, and touching
no registry of any other type; scenario 2's input expands as the test
expects. -/
theorem unmarshalYAML_standard_spec (r : Registry) (h : r.ty = "standard") :
    standardRegistryInput.unmarshalYAML = standardRegistryExpanded ∧
    (∀ s : Registry, s.ty ≠ "standard" → s.unmarshalYAML = s) ∧
    (r.unmarshalYAML.ty = "github_content" ∧
     r.unmarshalYAML.ref = r.ref ∧
     r.unmarshalYAML.url = r.url ∧
     r.unmarshalYAML.version = r.version ∧
     r.unmarshalYAML.format = r.format ∧
     r.unmarshalYAML.priv = r.priv ∧
     (r.name ≠ "" → r.unmarshalYAML.name = r.name) ∧
     (r.name = "" → r.unmarshalYAML.name = "standard") ∧
     (r.repoOwner ≠ "" → r.unmarshalYAML.repoOwner = r.repoOwner) ∧
     (r.repoOwner = "" → r.unmarshalYAML.repoOwner = "aquaproj") ∧
     (r.repoName ≠ "" → r.unmarshalYAML.repoName = r.repoName) ∧
     (r.repoName = "" → r.unmarshalYAML.repoName = "aqua-registry") ∧
     (r.path ≠ "" → r.unmarshalYAML.path = r.path) ∧
     (r.path = "" → r.unmarshalYAML.path = "registry.yaml")) := by
  refine ⟨by decide, ?_, ?_⟩
  · intro s hs
    rw [Registry.unmarshalYAML]
    simp [hs]
  · rw [Registry.unmarshalYAML]
    simp only [h]
    by_cases h1 : r.name = "" <;>
      by_cases h2 : r.repoOwner = "" <;>
        by_cases h3 : r.repoName = "" <;>
          by_cases h4 : r.path = "" <;>
            simp [h1, h2, h3, h4]

/-- Witness for C4: the rewrite applied to scenario 2's input, which keeps
`ref` and produces the expanded registry. -/
theorem unmarshalYAML_standard_spec_witness :
    standardRegistryInput.ty = "standard" ∧
    standardRegistryInput.unmarshalYAML = standardRegistryExpanded ∧
    standardRegistryInput.unmarshalYAML.ref = standardRegistryInput.ref :=
  ⟨by decide, (unmarshalYAML_standard_spec standardRegistryInput (by decide)).1,
   (unmarshalYAML_standard_spec standardRegistryInput (by decide)).2.2.2.1⟩

/- ### C10 -/

/-- C10: `Validate` rejects every registry whose type is not exactly `local`,
`github_content` or `http` with the invalid-registry-type error — including
the documented configuration type `standard`; the scenario-2 standard
registry fails `Validate` as declared, and passes only after the YAML
unmarshal rewrite has turned its type into `github_content`. -/
theorem validate_invalidType_spec (r : Registry)
    (h1 : r.ty ≠ "local") (h2 : r.ty ≠ "github_content") (h3 : r.ty ≠ "http") :
    r.validate = .error .invalidRegistryType ∧
    standardRegistryInput.validate = .error .invalidRegistryType ∧
    standardRegistryInput.unmarshalYAML.validate = .ok () := by
  refine ⟨?_, by decide, by decide⟩
  rw [Registry.validate]
  simp [h1, h2, h3]

/-- Witness for C10: the standard registry itself has a type outside the
three valid ones, and is rejected by `Validate`. -/
theorem validate_invalidType_spec_witness :
    standardRegistryInput.ty ≠ "local" ∧
    standardRegistryInput.ty ≠ "github_content" ∧
    standardRegistryInput.ty ≠ "http" ∧
    standardRegistryInput.validate = .error .invalidRegistryType :=
  ⟨by decide, by decide, by decide,
   (validate_invalidType_spec standardRegistryInput (by decide) (by decide) (by decide)).1⟩

/- ### C5 -/

/-- C5: for every HTTP registry, `FilePath` is the root directory joined with
`registries`, `http`, the first 16 hex characters of the SHA-256 digest of
the raw URL template, the version, and the base name of `Path` (or
`registry.yaml` when `Path` is empty); scenario 1's registry resolves to
`/root/.aqua/registries/http/06eeabea3ca08429/v1.0.0/registry.yaml`. -/
theorem filePath_http_spec (r : Registry) (h : r.ty = "http") :
    (∀ rootDir cfgFilePath,
      r.filePath rootDir cfgFilePath =
        .ok (filepathJoin [rootDir, "registries", "http",
          stringTake 16 (hexEncode (sha256Sum (strBytes r.url))), r.version,
          if r.path != "" then filepathBase r.path else "registry.yaml"])) ∧
    httpRegistryInput.filePath "/root/.aqua" "" =
      .ok "/root/.aqua/registries/http/06eeabea3ca08429/v1.0.0/registry.yaml" := by
  constructor
  · intro rootDir cfgFilePath
    rw [Registry.filePath, h]
    simp
  · decide

/-- Witness for C5: the general shape applied to scenario 1's registry,
whose concrete path the theorem also computes. -/
theorem filePath_http_spec_witness :
    httpRegistryInput.ty = "http" ∧
    httpRegistryInput.filePath "/root/.aqua" "" =
      .ok "/root/.aqua/registries/http/06eeabea3ca08429/v1.0.0/registry.yaml" :=
  ⟨by decide, (filePath_http_spec httpRegistryInput (by decide)).2⟩

/- ### C8 -/

/-- C8: when an HTTP registry download is an archive, the registry file is
searched inside the extracted tree using exactly the registry's `path` when
set, and otherwise `registry.yaml` followed by `registry.yml` in that order,
taking the first file that can be read; when none of the searched paths
exists the search fails with the registry-file-not-found error. -/
theorem extractHTTPRegistryArchive_search_spec
    (readFile : String → Option String) (extractDir regPath : String) :
    (archiveSearchPaths "" = ["registry.yaml", "registry.yml"]) ∧
    (regPath ≠ "" → archiveSearchPaths regPath = [regPath]) ∧
    (regPath ≠ "" → ∀ d, readFile (filepathJoin [extractDir, regPath]) = some d →
      findRegistryInArchive readFile extractDir regPath =
        .ok (d, filepathJoin [extractDir, regPath])) ∧
    (regPath ≠ "" → readFile (filepathJoin [extractDir, regPath]) = none →
      findRegistryInArchive readFile extractDir regPath =
        .error (.registryFileNotFound [regPath])) ∧
    (∀ d, readFile (filepathJoin [extractDir, "registry.yaml"]) = some d →
      findRegistryInArchive readFile extractDir "" =
        .ok (d, filepathJoin [extractDir, "registry.yaml"])) ∧
    (readFile (filepathJoin [extractDir, "registry.yaml"]) = none →
      ∀ d, readFile (filepathJoin [extractDir, "registry.yml"]) = some d →
      findRegistryInArchive readFile extractDir "" =
        .ok (d, filepathJoin [extractDir, "registry.yml"])) ∧
    (readFile (filepathJoin [extractDir, "registry.yaml"]) = none →
      readFile (filepathJoin [extractDir, "registry.yml"]) = none →
      findRegistryInArchive readFile extractDir "" =
        .error (.registryFileNotFound ["registry.yaml", "registry.yml"])) := by
  have hpaths : ∀ p : String, p ≠ "" → archiveSearchPaths p = [p] := by
    intro p hp
    rw [archiveSearchPaths]
    simp [hp]
  refine ⟨by decide, hpaths regPath, ?_, ?_, ?_, ?_, ?_⟩
  · intro hne d hd
    rw [findRegistryInArchive, hpaths regPath hne]
    simp [archiveSearchLoop, hd]
  · intro hne hd
    rw [findRegistryInArchive, hpaths regPath hne]
    simp [archiveSearchLoop, hd]
  · intro d hd
    rw [findRegistryInArchive, show archiveSearchPaths "" = ["registry.yaml", "registry.yml"] from by decide]
    simp [archiveSearchLoop, hd]
  · intro h1 d hd
    rw [findRegistryInArchive, show archiveSearchPaths "" = ["registry.yaml", "registry.yml"] from by decide]
    simp [archiveSearchLoop, h1, hd]
  · intro h1 h2
    rw [findRegistryInArchive, show archiveSearchPaths "" = ["registry.yaml", "registry.yml"] from by decide]
    simp [archiveSearchLoop, h1, h2]

/-- A snapshot of extracted archive contents used by the C8 witness: only
`out/registry.yml` exists. -/
def archiveReadFileExample : String → Option String :=
  fun p => if p == "out/registry.yml" then some "packages:" else none

/-- Witness for C8: with only `registry.yml` present and no path configured,
the second default candidate is taken; with a path configured, exactly that
path is searched. -/
theorem extractHTTPRegistryArchive_search_spec_witness :
    archiveReadFileExample (filepathJoin ["out", "registry.yaml"]) = none ∧
    archiveReadFileExample (filepathJoin ["out", "registry.yml"]) = some "packages:" ∧
    findRegistryInArchive archiveReadFileExample "out" "" =
      .ok ("packages:", filepathJoin ["out", "registry.yml"]) ∧
    findRegistryInArchive archiveReadFileExample "out" "custom/reg.yaml" =
      .error (.registryFileNotFound ["custom/reg.yaml"]) :=
  ⟨by decide, by decide,
   (extractHTTPRegistryArchive_search_spec archiveReadFileExample "out" "").2.2.2.2.2.1
     (by decide) "packages:" (by decide),
   (extractHTTPRegistryArchive_search_spec archiveReadFileExample "out" "custom/reg.yaml").2.2.2.1
     (by decide) (by decide)⟩

/- ### C9 -/

/-- C9: `createLink` performs this case analysis on the entry at `linkPath`:
a directory or named pipe fails without touching the filesystem; a regular
file is removed and replaced by a symlink to `linkDest`; a symlink already
pointing at `linkDest` is left alone; a symlink pointing elsewhere is removed
and recreated; and when nothing exists a symlink is created. -/
theorem createLink_spec (fs : Fs) (linkPath linkDest : String) :
    (lstat fs linkPath = some .dir →
      createLink fs linkPath linkDest = .error (.pathIsDirectory linkPath)) ∧
    (lstat fs linkPath = some .namedPipe →
      createLink fs linkPath linkDest = .error (.pathIsNamedPipe linkPath)) ∧
    (lstat fs linkPath = some .regular →
      createLink fs linkPath linkDest =
        .ok [.remove linkPath, .symlink linkDest linkPath]) ∧
    (∀ t, lstat fs linkPath = some (.symlinkTo t) → t = linkDest →
      createLink fs linkPath linkDest = .ok []) ∧
    (∀ t, lstat fs linkPath = some (.symlinkTo t) → t ≠ linkDest →
      createLink fs linkPath linkDest =
        .ok [.remove linkPath, .symlink linkDest linkPath]) ∧
    (lstat fs linkPath = none →
      createLink fs linkPath linkDest = .ok [.symlink linkDest linkPath]) := by
  refine ⟨?_, ?_, ?_, ?_, ?_, ?_⟩
  · intro h; rw [createLink, h]
  · intro h; rw [createLink, h]
  · intro h; rw [createLink, h]
  · intro t h ht
    rw [createLink, h]
    subst ht
    simp
  · intro t h ht
    rw [createLink, h]
    simp only [beq_iff_eq]
    rw [if_neg (fun e => ht e.symm)]
  · intro h; rw [createLink, h]

/-- Witness for C9: a snapshot holding a directory, a regular file, an
up-to-date symlink and a stale symlink, exercising every branch. -/
def linkFsExample : Fs :=
  [("bin/dirhere", FsKind.dir),
   ("bin/pipehere", FsKind.namedPipe),
   ("bin/plain", FsKind.regular),
   ("bin/good", FsKind.symlinkTo "../aqua-proxy"),
   ("bin/stale", FsKind.symlinkTo "../old-proxy")]

/-- Witness for C9: every branch of `createLink` evaluated on the example
snapshot. -/
theorem createLink_spec_witness :
    createLink linkFsExample "bin/dirhere" "../aqua-proxy" =
      .error (.pathIsDirectory "bin/dirhere") ∧
    createLink linkFsExample "bin/pipehere" "../aqua-proxy" =
      .error (.pathIsNamedPipe "bin/pipehere") ∧
    createLink linkFsExample "bin/plain" "../aqua-proxy" =
      .ok [.remove "bin/plain", .symlink "../aqua-proxy" "bin/plain"] ∧
    createLink linkFsExample "bin/good" "../aqua-proxy" = .ok [] ∧
    createLink linkFsExample "bin/stale" "../aqua-proxy" =
      .ok [.remove "bin/stale", .symlink "../aqua-proxy" "bin/stale"] ∧
    createLink linkFsExample "bin/fresh" "../aqua-proxy" =
      .ok [.symlink "../aqua-proxy" "bin/fresh"] :=
  ⟨(createLink_spec linkFsExample "bin/dirhere" "../aqua-proxy").1 (by decide),
   (createLink_spec linkFsExample "bin/pipehere" "../aqua-proxy").2.1 (by decide),
   (createLink_spec linkFsExample "bin/plain" "../aqua-proxy").2.2.1 (by decide),
   (createLink_spec linkFsExample "bin/good" "../aqua-proxy").2.2.2.1 "../aqua-proxy"
     (by decide) (by decide),
   (createLink_spec linkFsExample "bin/stale" "../aqua-proxy").2.2.2.2.1 "../old-proxy"
     (by decide) (by decide),
   (createLink_spec linkFsExample "bin/fresh" "../aqua-proxy").2.2.2.2.2 (by decide)⟩

/- ### C2 -/

/-- Helper for C2: a successful `createLink` never produces a hard link. -/
theorem createLink_ops_no_hardlink (fs : Fs) (linkPath linkDest : String)
    (ops : List LinkOp) (h : createLink fs linkPath linkDest = .ok ops) :
    ∀ op ∈ ops, ∀ d p, op ≠ LinkOp.hardlink d p := by
  rw [createLink] at h
  split at h
  · cases h
  · cases h
  · cases h
    simp
  · split at h
    · cases h
      simp
    · cases h
      simp
  · cases h
  · cases h
    simp

/-- Helper for C2: a fold of `LinkOp` accumulators preserves a per-operation
invariant preserved by each step. -/
theorem foldl_linkOps_invariant {α : Type} (g : Bool × List LinkOp → α → Bool × List LinkOp)
    (P : LinkOp → Prop)
    (hstep : ∀ acc x, (∀ op ∈ acc.2, P op) → ∀ op ∈ (g acc x).2, P op) :
    ∀ (l : List α) (acc : Bool × List LinkOp), (∀ op ∈ acc.2, P op) →
      ∀ op ∈ (l.foldl g acc).2, P op := by
  intro l
  induction l with
  | nil => intro acc h; simpa using h
  | cons x xs ih => intro acc h; exact ih _ (hstep acc x h)

/-- Helper for C2: on a non-Windows OS, `createLinksStep` adds no hard link. -/
theorem createLinksStep_no_hardlink (goos rootDir : String) (fs : Fs)
    (hg : isWindows goos = false) (acc : Bool × List LinkOp) (f : String)
    (h : ∀ op ∈ acc.2, ∀ d p, op ≠ LinkOp.hardlink d p) :
    ∀ op ∈ (createLinksStep goos rootDir fs acc f).2, ∀ d p, op ≠ LinkOp.hardlink d p := by
  rw [createLinksStep, hg]
  simp only [Bool.false_eq_true, if_false]
  cases hc : createLink fs (filepathJoin [rootDir, "bin", f]) (filepathJoin ["..", proxyName]) with
  | error e => simpa using h
  | ok ops =>
    intro op hop
    rcases List.mem_append.mp hop with hin | hin
    · exact h op hin
    · exact createLink_ops_no_hardlink fs _ _ ops hc op hin

/-- Helper for C2: on Windows, `createLinksStep` adds only hard links. -/
theorem createLinksStep_only_hardlink (goos rootDir : String) (fs : Fs)
    (hg : isWindows goos = true) (acc : Bool × List LinkOp) (f : String)
    (h : ∀ op ∈ acc.2, ∃ d p, op = LinkOp.hardlink d p) :
    ∀ op ∈ (createLinksStep goos rootDir fs acc f).2, ∃ d p, op = LinkOp.hardlink d p := by
  rw [createLinksStep, hg]
  simp only [if_true]
  intro op hop
  rcases List.mem_append.mp hop with hin | hin
  · exact h op hin
  · refine ⟨filepathJoin [rootDir, proxyName ++ ".exe"],
      filepathJoin [rootDir, "bin", f ++ ".exe"], ?_⟩
    simpa using hin

/-- The snapshot of the C2 counterexample: the `hardlink` sentinel exists
under the root directory (and nothing else does). -/
def sentinelFsExample : Fs :=
  [("/root/.aqua/hardlink", FsKind.regular)]

/-- C2 counterexample: with the `hardlink` sentinel present, `createLinks` on
a non-Windows OS still creates a symbolic link (and no hard link) for an
installed file, contradicting the claim that the sentinel switches shim
creation to hard links on every platform. -/
theorem createLinks_sentinel_counterexample :
    fsExists sentinelFsExample (filepathJoin ["/root/.aqua", "hardlink"]) = true ∧
    (createLinks "linux" "/root/.aqua" sentinelFsExample [["foo"]]).2 =
      [LinkOp.symlink "../aqua-proxy" "/root/.aqua/bin/foo"] ∧
    ((createLinks "linux" "/root/.aqua" sentinelFsExample [["foo"]]).2.any
      (fun op => match op with | LinkOp.hardlink _ _ => true | _ => false)) = false := by
  refine ⟨by decide, by decide, by decide⟩

/-- C2 (amended): the kind of shim link `createLinks` creates is decided by
the OS alone — hard links exactly on Windows, symbolic links elsewhere,
irrespective of the `hardlink` sentinel — while the one-time migration
`replaceWithHardlinks` is a no-op when the sentinel exists and otherwise
removes every entry of `<root>/bin`, hard links it to the proxy, and creates
the sentinel. -/
theorem createLinks_hardlink_spec (goos rootDir : String) (fs : Fs)
    (pkgs : List (List String)) :
    (isWindows goos = false →
      ∀ op ∈ (createLinks goos rootDir fs pkgs).2, ∀ d p, op ≠ LinkOp.hardlink d p) ∧
    (isWindows goos = true →
      ∀ op ∈ (createLinks goos rootDir fs pkgs).2, ∃ d p, op = LinkOp.hardlink d p) ∧
    (fsExists fs (filepathJoin [rootDir, "hardlink"]) = true →
      replaceWithHardlinks fs rootDir = .ok []) ∧
    (fsExists fs (filepathJoin [rootDir, "hardlink"]) = false →
      lstat fs (filepathJoin [rootDir, "bin"]) = some .dir →
      replaceWithHardlinks fs rootDir =
        .ok (((readDirNames fs (filepathJoin [rootDir, "bin"])).map (fun n =>
            [LinkOp.remove (filepathJoin [filepathJoin [rootDir, "bin"], n]),
             LinkOp.hardlink (filepathJoin [rootDir, "aqua-proxy"])
               (filepathJoin [filepathJoin [rootDir, "bin"], n])])).flatten
          ++ [LinkOp.createFile (filepathJoin [rootDir, "hardlink"])])) := by
  refine ⟨?_, ?_, ?_, ?_⟩
  · intro hg
    exact foldl_linkOps_invariant _ _
      (fun acc files h => foldl_linkOps_invariant _ _
        (createLinksStep_no_hardlink goos rootDir fs hg) files acc h)
      pkgs (false, []) (by simp)
  · intro hg
    exact foldl_linkOps_invariant _ _
      (fun acc files h => foldl_linkOps_invariant _ _
        (createLinksStep_only_hardlink goos rootDir fs hg) files acc h)
      pkgs (false, []) (by simp)
  · intro hs
    rw [replaceWithHardlinks, hs]
    simp
  · intro hs hb
    rw [replaceWithHardlinks, hs]
    simp only [Bool.false_eq_true, if_false]
    rw [hb]

/-- The snapshot of the C2 migration witness: no sentinel, a bin directory
with two shims. -/
def migrationFsExample : Fs :=
  [("/r/bin", FsKind.dir),
   ("/r/bin/gh", FsKind.symlinkTo "../aqua-proxy"),
   ("/r/bin/jq", FsKind.symlinkTo "../aqua-proxy")]

/-- Witness for C2 (amended): on Linux the produced shim op is not a hard
link even with the sentinel present; the migration is a no-op once the
sentinel exists and replaces both bin entries (then writes the sentinel)
when it does not. -/
theorem createLinks_hardlink_spec_witness :
    isWindows "linux" = false ∧
    LinkOp.symlink "../aqua-proxy" "/root/.aqua/bin/foo" ∈
      (createLinks "linux" "/root/.aqua" sentinelFsExample [["foo"]]).2 ∧
    LinkOp.symlink "../aqua-proxy" "/root/.aqua/bin/foo" ≠
      LinkOp.hardlink "/root/.aqua/aqua-proxy" "/root/.aqua/bin/foo" ∧
    replaceWithHardlinks sentinelFsExample "/root/.aqua" = .ok [] ∧
    replaceWithHardlinks migrationFsExample "/r" =
      .ok [LinkOp.remove "/r/bin/gh", LinkOp.hardlink "/r/aqua-proxy" "/r/bin/gh",
           LinkOp.remove "/r/bin/jq", LinkOp.hardlink "/r/aqua-proxy" "/r/bin/jq",
           LinkOp.createFile "/r/hardlink"] := by
  refine ⟨by decide, by decide,
    (createLinks_hardlink_spec "linux" "/root/.aqua" sentinelFsExample [["foo"]]).1
      (by decide) _ (by decide) _ _,
    (createLinks_hardlink_spec "linux" "/root/.aqua" sentinelFsExample [["foo"]]).2.2.1
      (by decide), ?_⟩
  have h := (createLinks_hardlink_spec "linux" "/r" migrationFsExample []).2.2.2
    (by decide) (by decide)
  rw [h]
  decide

/- ### C1 -/

/-- C1: for every github_release download, the anonymous GET of
`https://github.com/<o>/<r>/releases/download/<v>/<asset>` comes first and
succeeds alone; the Releases API is consulted exactly when the anonymous
attempt fails (given a configured client): the release is fetched by tag,
the asset id found by name, and `DownloadReleaseAsset` either yields the
body directly or a redirect URL that is then downloaded. -/
theorem downloadFromGitHubRelease_spec (env : ReleaseEnv)
    (owner repo version assetName : String) :
    (∀ b, env.httpDownload (anonymousReleaseURL owner repo version assetName) = .ok b →
      downloadFromGitHubRelease env owner repo version assetName =
        (.ok b, [.httpGet (anonymousReleaseURL owner repo version assetName)])) ∧
    (env.hasGitHub = true →
      (Call.apiGetReleaseByTag owner repo version ∈
          (downloadFromGitHubRelease env owner repo version assetName).2 ↔
        env.httpDownload (anonymousReleaseURL owner repo version assetName) = .error ())) ∧
    (∀ assets a,
      env.httpDownload (anonymousReleaseURL owner repo version assetName) = .error () →
      env.hasGitHub = true →
      env.getReleaseByTag owner repo version = .ok assets →
      assets.find? (fun x => x.name == assetName) = some a →
      (∀ body redirectURL, env.downloadReleaseAsset a.id = .ok (some body, redirectURL) →
        (downloadFromGitHubRelease env owner repo version assetName).1 = .ok body) ∧
      (∀ redirectURL b, env.downloadReleaseAsset a.id = .ok (none, redirectURL) →
        env.httpDownload redirectURL = .ok b →
        (downloadFromGitHubRelease env owner repo version assetName).1 = .ok b)) := by
  refine ⟨?_, ?_, ?_⟩
  · intro b hb
    rw [downloadFromGitHubRelease, hb]
  · intro hg
    cases hh : env.httpDownload (anonymousReleaseURL owner repo version assetName) with
    | ok b => simp [downloadFromGitHubRelease, hh]
    | error e =>
      cases e
      cases hr : env.getReleaseByTag owner repo version with
      | error e2 => simp [downloadFromGitHubRelease, hh, hg, hr]
      | ok assets =>
        cases hf : getAssetIDFromAssets assets assetName with
        | error e3 => simp [downloadFromGitHubRelease, hh, hg, hr, hf]
        | ok assetID =>
          cases hd : env.downloadReleaseAsset assetID with
          | error e4 => simp [downloadFromGitHubRelease, hh, hg, hr, hf, hd]
          | ok pair =>
            rcases pair with ⟨bodyOpt, redirectURL⟩
            cases bodyOpt with
            | some body => simp [downloadFromGitHubRelease, hh, hg, hr, hf, hd]
            | none =>
              cases hh2 : env.httpDownload redirectURL with
              | ok b2 => simp [downloadFromGitHubRelease, hh, hg, hr, hf, hd, hh2]
              | error e5 => simp [downloadFromGitHubRelease, hh, hg, hr, hf, hd, hh2]
  · intro assets a hh hg hr hf
    have hfid : getAssetIDFromAssets assets assetName = .ok a.id := by
      rw [getAssetIDFromAssets, hf]
    constructor
    · intro body redirectURL hd
      simp [downloadFromGitHubRelease, hh, hg, hr, hfid, hd]
    · intro redirectURL b hd hh2
      simp [downloadFromGitHubRelease, hh, hg, hr, hfid, hd, hh2]

/-- The environment of the C1 witness: the anonymous URL fails (as a 404
does), the API returns a release whose asset list contains the asset, and
`DownloadReleaseAsset` returns a body directly. -/
def releaseEnvApi : ReleaseEnv :=
  { httpDownload := fun _ => .error ()
    getReleaseByTag := fun _ _ _ => .ok [⟨"other.zip", 3⟩, ⟨"gh.tar.gz", 7⟩]
    downloadReleaseAsset := fun i => if i == 7 then .ok (some "api-body", "") else .error ()
    hasGitHub := true }

/-- The environment of the C1 witness where the anonymous URL succeeds. -/
def releaseEnvAnon : ReleaseEnv :=
  { httpDownload := fun _ => .ok "direct-body"
    getReleaseByTag := fun _ _ _ => .error ()
    downloadReleaseAsset := fun _ => .error ()
    hasGitHub := false }

/-- The environment of the C1 witness where the API answers with a redirect
URL that is then downloaded anonymously. -/
def releaseEnvRedirect : ReleaseEnv :=
  { httpDownload := fun u => if u == "https://objects.example/asset" then .ok "redirect-body" else .error ()
    getReleaseByTag := fun _ _ _ => .ok [⟨"gh.tar.gz", 7⟩]
    downloadReleaseAsset := fun _ => .ok (none, "https://objects.example/asset")
    hasGitHub := true }

/-- Witness for C1: the anonymous path alone when it succeeds; the API body
when the anonymous GET fails (spec scenario 5); the redirect body when the
API returns a redirect URL. -/
theorem downloadFromGitHubRelease_spec_witness :
    downloadFromGitHubRelease releaseEnvAnon "o" "r" "v1" "gh.tar.gz" =
      (.ok "direct-body", [.httpGet (anonymousReleaseURL "o" "r" "v1" "gh.tar.gz")]) ∧
    (downloadFromGitHubRelease releaseEnvApi "o" "r" "v1" "gh.tar.gz").1 = .ok "api-body" ∧
    (downloadFromGitHubRelease releaseEnvRedirect "o" "r" "v1" "gh.tar.gz").1 = .ok "redirect-body" :=
  ⟨(downloadFromGitHubRelease_spec releaseEnvAnon "o" "r" "v1" "gh.tar.gz").1
      "direct-body" (by decide),
   ((downloadFromGitHubRelease_spec releaseEnvApi "o" "r" "v1" "gh.tar.gz").2.2
      [⟨"other.zip", 3⟩, ⟨"gh.tar.gz", 7⟩] ⟨"gh.tar.gz", 7⟩
      (by decide) (by decide) (by decide) (by decide)).1 "api-body" "" (by decide),
   ((downloadFromGitHubRelease_spec releaseEnvRedirect "o" "r" "v1" "gh.tar.gz").2.2
      [⟨"gh.tar.gz", 7⟩] ⟨"gh.tar.gz", 7⟩
      (by decide) (by decide) (by decide) (by decide)).2
      "https://objects.example/asset" "redirect-body" (by decide) (by decide)⟩

/- ### C3 -/

/-- Helper for C3: when every remaining attempt asks for a retry and no wait
is cancelled, the loop exhausts its fuel and reports the start failure,
having waited 10 ms between attempts. -/
theorem execRetryLoop_all_retry (env : ExecEnv) :
    ∀ fuel i,
      (∀ j, j < fuel → (execCommand env false (i + j)).1 = true ∧
        env.waitCancelled (i + j) = false) →
      execRetryLoop env false fuel i = (some .failedToStart, List.replicate fuel 10) := by
  intro fuel
  induction fuel with
  | zero => intro i _; rfl
  | succ f ih =>
    intro i h
    have h0 := h 0 (Nat.succ_pos f)
    rw [Nat.add_zero] at h0
    rcases hc : execCommand env false i with ⟨b, e⟩
    rw [hc] at h0
    have hb : b = true := h0.1
    subst hb
    have ihs := ih (i + 1) (fun j hj => by
      have := h (j + 1) (Nat.succ_lt_succ hj)
      rwa [show i + (j + 1) = i + 1 + j by omega] at this)
    simp [execRetryLoop, hc, h0.2, ihs, List.replicate_succ]

/-- Helper for C3: when the first `k` attempts ask for a retry (with
uncancelled waits) and attempt `k` does not, the loop stops at attempt `k`
and returns its error, having performed `k` waits of 10 ms. -/
theorem execRetryLoop_stops (env : ExecEnv) :
    ∀ k fuel i, k < fuel →
      (∀ j, j < k → (execCommand env false (i + j)).1 = true ∧
        env.waitCancelled (i + j) = false) →
      (execCommand env false (i + k)).1 = false →
      execRetryLoop env false fuel i =
        ((execCommand env false (i + k)).2, List.replicate k 10) := by
  intro k
  induction k with
  | zero =>
    intro fuel i hk _ hstop
    rcases fuel with _ | f
    · exact absurd hk (Nat.lt_irrefl 0)
    · rw [Nat.add_zero] at hstop
      rcases hc : execCommand env false i with ⟨b, e⟩
      rw [hc] at hstop
      subst hstop
      simp [execRetryLoop, hc, Nat.add_zero, hc]
  | succ n ih =>
    intro fuel i hk h hstop
    rcases fuel with _ | f
    · exact absurd hk (Nat.not_lt_zero _)
    · have h0 := h 0 (Nat.succ_pos n)
      rw [Nat.add_zero] at h0
      rcases hc : execCommand env false i with ⟨b, e⟩
      rw [hc] at h0
      have hb : b = true := h0.1
      subst hb
      have ihs := ih f (i + 1) (Nat.lt_of_succ_lt_succ hk)
        (fun j hj => by
          have := h (j + 1) (Nat.succ_lt_succ hj)
          rwa [show i + (j + 1) = i + 1 + j by omega] at this)
        (by rwa [show i + 1 + n = i + (n + 1) by omega])
      rw [show i + 1 + n = i + (n + 1) by omega] at ihs
      simp [execRetryLoop, hc, h0.2, ihs, List.replicate_succ]

/-- C3: without XSysExec, an executor error with exit code `-1` and no
context cancellation asks for a retry while any other executor error is
returned immediately wrapped with its exit code and a success returns no
error; the retry loop makes at most 10 attempts, each followed by a 10 ms
wait, stops at the first attempt not asking for a retry, and after the 10th
failed start returns the error `it failed to start the process`. -/
theorem execCommandWithRetry_spec (env : ExecEnv) :
    ((∀ i, i < 10 → (execCommand env false i).1 = true ∧ env.waitCancelled i = false) →
      execCommandWithRetry env false = (some .failedToStart, List.replicate 10 10)) ∧
    (∀ k, k < 10 →
      (∀ i, i < k → (execCommand env false i).1 = true ∧ env.waitCancelled i = false) →
      (execCommand env false k).1 = false →
      execCommandWithRetry env false = ((execCommand env false k).2, List.replicate k 10)) ∧
    (∀ i,
      ((env.execResult i).2 = true → (env.execResult i).1 = -1 → env.cancelled i = false →
        execCommand env false i = (true, some .startFailure)) ∧
      ((env.execResult i).2 = true → (env.execResult i).1 ≠ -1 →
        execCommand env false i = (false, some (.exitCodeError (env.execResult i).1))) ∧
      ((env.execResult i).2 = true → env.cancelled i = true →
        execCommand env false i = (false, some (.exitCodeError (env.execResult i).1))) ∧
      ((env.execResult i).2 = false → execCommand env false i = (false, none))) := by
  refine ⟨?_, ?_, ?_⟩
  · intro h
    exact execRetryLoop_all_retry env 10 0 (fun j hj => by simpa using h j hj)
  · intro k hk h hstop
    have := execRetryLoop_stops env k 10 0 hk (fun j hj => by simpa using h j hj)
      (by simpa using hstop)
    simpa [execCommandWithRetry] using this
  · intro i
    refine ⟨?_, ?_, ?_, ?_⟩
    · intro he hc hn
      rw [execCommand]
      simp [he, hc, hn]
    · intro he hc
      rw [execCommand]
      simp [he, hc]
    · intro he hc
      rw [execCommand]
      simp [he, hc]
    · intro he
      rw [execCommand]
      simp [he]

/-- The C3 witness environment where the process never starts: every attempt
reports exit code `-1` with an error and no cancellation. -/
def execEnvNeverStarts : ExecEnv :=
  { execResult := fun _ => (-1, true)
    cancelled := fun _ => false
    waitCancelled := fun _ => false
    execXSysErrored := fun _ => false }

/-- The C3 witness environment where attempt 0 fails with exit code 2. -/
def execEnvExitCode2 : ExecEnv :=
  { execResult := fun _ => (2, true)
    cancelled := fun _ => false
    waitCancelled := fun _ => false
    execXSysErrored := fun _ => false }

/-- The C3 witness environment where the first three attempts report exit
code `-1` and the fourth succeeds. -/
def execEnvStartsLate : ExecEnv :=
  { execResult := fun i => if i < 3 then (-1, true) else (0, false)
    cancelled := fun _ => false
    waitCancelled := fun _ => false
    execXSysErrored := fun _ => false }

/-- Witness for C3: ten failed starts yield the failed-to-start error after
ten 10 ms waits; a non-`-1` exit code is returned immediately wrapped; a
late success stops the retries with no error. -/
theorem execCommandWithRetry_spec_witness :
    execCommandWithRetry execEnvNeverStarts false =
      (some .failedToStart, List.replicate 10 10) ∧
    execCommandWithRetry execEnvExitCode2 false =
      (some (.exitCodeError 2), []) ∧
    execCommandWithRetry execEnvStartsLate false = (none, [10, 10, 10]) := by
  refine ⟨(execCommandWithRetry_spec execEnvNeverStarts).1 (by decide), ?_, ?_⟩
  · have h := (execCommandWithRetry_spec execEnvExitCode2).2.1 0 (by decide)
      (by decide) (by decide)
    rw [h]
    decide
  · have h := (execCommandWithRetry_spec execEnvStartsLate).2.1 3 (by decide)
      (by decide) (by decide)
    rw [h]
    decide
